import Mathlib

/-!
Shallow embedding of the pylot perception-to-control core:
  * src/pylot/control/ground_agent_operator.py   (GroundAgentOperator)
  * src/pylot/simulation/utils.py                (detection matching)
  * src/pylot/loggers/chauffeur_logger_operator.py (ChauffeurLoggerOperator)

Python floats are embedded as rationals (ℚ); machine-integer pixel
coordinates as ℤ.  Helpers that live outside src/ (pylot.utils,
pylot.control.utils, the PID library, erdos) are either modelled from the
spec (with a doc comment saying so) or taken as function parameters.
-/

namespace Pylot

/-- World-space 3D point, mirroring pylot.utils.Location. -/
structure Location where
  x : ℚ
  y : ℚ
  z : ℚ
  deriving DecidableEq

instance : Inhabited Location := ⟨⟨0, 0, 0⟩⟩

/-- Rotation (pitch, yaw, roll), mirroring pylot.utils.Rotation. -/
structure Rotation where
  pitch : ℚ
  yaw : ℚ
  roll : ℚ
  deriving DecidableEq

instance : Inhabited Rotation := ⟨⟨0, 0, 0⟩⟩

/-- Transform: a pose (location + rotation) together with the action of its
matrix on points.  The field `transform_locations` models
pylot.utils.Transform.transform_locations (outside src/) pointwise; the
source maps it over a list of locations. -/
structure Transform where
  location : Location
  rotation : Rotation
  transform_locations : Location → Location

instance : Inhabited Transform := ⟨⟨default, default, id⟩⟩

/-- 2D image-space bounding box, mirroring
pylot.perception.detection.utils.BoundingBox2D. -/
structure BoundingBox2D where
  x_min : ℤ
  x_max : ℤ
  y_min : ℤ
  y_max : ℤ
  deriving DecidableEq

instance : Inhabited BoundingBox2D := ⟨⟨0, 0, 0, 0⟩⟩

/-! ## Control synthesis (src/pylot/control/ground_agent_operator.py) -/

/-- Configuration flags read by GroundAgentOperator.get_control_message. -/
structure Flags where
  target_speed : ℚ
  steer_gain : ℚ

/-- Control command, mirroring pylot.control.messages.ControlMessage:
steer, throttle, brake, hand_brake, reverse, timestamp. -/
structure ControlMessage where
  steer : ℚ
  throttle : ℚ
  brake : ℚ
  hand_brake : Bool
  reverse : Bool
  timestamp : ℕ
  deriving DecidableEq

/-- Modelled from the spec: pylot.control.utils.radians_to_steer is outside
src/; the spec describes it as the steering gain multiplied by the
heading-angle error, clamped to [-1, 1]. -/
def radians_to_steer (wp_angle : ℚ) (gain : ℚ) : ℚ :=
  min 1 (max (-1) (gain * wp_angle))

/-- Cornering adjustment of the target speed, embedded from
get_control_message (ground_agent_operator.py lines 149-153):
`if math.fabs(wp_angle_speed) < 0.1: target_speed * speed_factor / 2
 else: target_speed * speed_factor`. -/
def target_speed_adjusted (flags : Flags) (wp_angle_speed speed_factor : ℚ) : ℚ :=
  if |wp_angle_speed| < 1 / 10 then
    flags.target_speed * speed_factor / 2
  else
    flags.target_speed * speed_factor

/-- GroundAgentOperator.get_control_message.  The Python `assert
current_speed >= 0` raises AssertionError; we embed the raise as `.error`.
`compute_throttle_and_brake` (pylot.control.utils, outside src/) is passed
in as the function argument `ctb` (current speed, adjusted target speed) ↦
(throttle, brake), standing for the PID feedback step of the spec. -/
def get_control_message (flags : Flags) (ctb : ℚ → ℚ → ℚ × ℚ)
    (wp_angle wp_angle_speed speed_factor current_speed : ℚ)
    (timestamp : ℕ) : Except String ControlMessage :=
  if current_speed ≥ 0 then
    let steer := radians_to_steer wp_angle flags.steer_gain
    let tsa := target_speed_adjusted flags wp_angle_speed speed_factor
    let tb := ctb current_speed tsa
    .ok ⟨steer, tb.1, tb.2, false, false, timestamp⟩
  else
    .error ("Current speed is negative")

/-! ## GroundAgentOperator event loop (ground_agent_operator.py) -/

section Operator

-- Obstacle and traffic-light payloads are never inspected by the code in
-- src/ (they are handed to pylot.control.utils.stop_for_agents, outside
-- src/), so the operator embedding is parametric in their types.
variable (Obstacle TrafficLight : Type)

/-- Can-bus message payload: `msg.data.transform` and
`msg.data.forward_speed` are the fields read by on_watermark. -/
structure CanBusData where
  transform : Transform
  forward_speed : ℚ

/-- Waypoint message: wp_angle, wp_vector, wp_angle_speed, as read by
on_watermark. -/
structure WaypointMsg where
  wp_angle : ℚ
  wp_vector : Location
  wp_angle_speed : ℚ

/-- The four per-source FIFO queues of GroundAgentOperator
(self._can_bus_msgs, self._obstacle_msgs, self._traffic_light_msgs,
self._waypoint_msgs), all deques appended at the back and popped at the
front. -/
structure AgentState where
  can_bus_msgs : List CanBusData
  obstacle_msgs : List (List Obstacle)
  traffic_light_msgs : List (List TrafficLight)
  waypoint_msgs : List WaypointMsg

variable {Obstacle TrafficLight : Type}

/-- GroundAgentOperator.on_watermark.  `sfa` stands for
pylot.control.utils.stop_for_agents (outside src/): it consumes the
vehicle location, waypoint data, obstacles and traffic lights and yields
(speed_factor, state).  Returns `none` when some queue is empty (Python's
`deque.popleft` would raise IndexError); otherwise the dequeued state
together with the emitted message (`none` in the message slot when
get_control_message raised). -/
def on_watermark (flags : Flags) (ctb : ℚ → ℚ → ℚ × ℚ)
    (sfa : Location → ℚ → Location → ℚ → List Obstacle → List TrafficLight → ℚ × ℕ)
    (s : AgentState Obstacle TrafficLight) (timestamp : ℕ) :
    Option (AgentState Obstacle TrafficLight × Option ControlMessage) :=
  match s.can_bus_msgs, s.obstacle_msgs, s.traffic_light_msgs, s.waypoint_msgs with
  | can_bus_msg :: cbs, obstacles :: obs, traffic_lights :: tls, waypoint_msg :: wps =>
    let vehicle_transform := can_bus_msg.transform
    let vehicle_speed := can_bus_msg.forward_speed
    let sf := sfa vehicle_transform.location waypoint_msg.wp_angle
        waypoint_msg.wp_vector waypoint_msg.wp_angle_speed obstacles traffic_lights
    match get_control_message flags ctb waypoint_msg.wp_angle
        waypoint_msg.wp_angle_speed sf.1 vehicle_speed timestamp with
    | .ok msg => some (⟨cbs, obs, tls, wps⟩, some msg)
    | .error _ => some (⟨cbs, obs, tls, wps⟩, none)
  | _, _, _, _ => none

/-- Events delivered to the operator by the dataflow runtime: one arrival
callback per source (each appends to its FIFO queue) plus the watermark
callback. -/
inductive Event (Obstacle TrafficLight : Type) where
  | canBus (m : CanBusData)
  | obstacles (m : List Obstacle)
  | trafficLights (m : List TrafficLight)
  | waypoints (m : WaypointMsg)
  | watermark (t : ℕ)

/-- One event step of the operator: arrivals append at the back of the
corresponding queue (on_can_bus_update, on_obstacles_update,
on_traffic_lights_update, on_waypoints_update); a watermark runs
on_watermark and sends the produced control message (if any) on the
control stream.  The second component is the list of messages sent during
the step. -/
def step (flags : Flags) (ctb : ℚ → ℚ → ℚ × ℚ)
    (sfa : Location → ℚ → Location → ℚ → List Obstacle → List TrafficLight → ℚ × ℕ)
    (s : AgentState Obstacle TrafficLight) :
    Event Obstacle TrafficLight →
      AgentState Obstacle TrafficLight × List ControlMessage
  | .canBus m => ({ s with can_bus_msgs := s.can_bus_msgs ++ [m] }, [])
  | .obstacles m => ({ s with obstacle_msgs := s.obstacle_msgs ++ [m] }, [])
  | .trafficLights m =>
      ({ s with traffic_light_msgs := s.traffic_light_msgs ++ [m] }, [])
  | .waypoints m => ({ s with waypoint_msgs := s.waypoint_msgs ++ [m] }, [])
  | .watermark t =>
      match on_watermark flags ctb sfa s t with
      | some (s', some msg) => (s', [msg])
      | some (s', none) => (s', [])
      | none => (s, [])

/-- Runs the operator over a list of events, collecting every control
message sent, in emission order. -/
def runEvents (flags : Flags) (ctb : ℚ → ℚ → ℚ × ℚ)
    (sfa : Location → ℚ → Location → ℚ → List Obstacle → List TrafficLight → ℚ × ℕ)
    (s : AgentState Obstacle TrafficLight) :
    List (Event Obstacle TrafficLight) → List ControlMessage
  | [] => []
  | e :: es =>
      let p := step flags ctb sfa s e
      p.2 ++ runEvents flags ctb sfa p.1 es

/-- Timestep carried by a watermark event, `none` for arrival events. -/
def Event.watermarkTime : Event Obstacle TrafficLight → Option ℕ
  | .watermark t => some t
  | _ => none

end Operator

/-! ## Detection matching (src/pylot/simulation/utils.py)

pylot.utils.Location.distance (outside src/) is the Euclidean distance;
to remain inside ℚ the embedding compares squared distances throughout,
which orders identically: the source's initial best of 10^6 becomes
10^12 and the `best_dist < 5**2` threshold becomes `< 625`. -/

/-- Squared Euclidean distance between two locations (the square of
pylot.utils.Location.distance, which the spec gives as Euclidean). -/
def dist_sq (a b : Location) : ℚ :=
  (a.x - b.x) * (a.x - b.x) + (a.y - b.y) * (a.y - b.y) +
    (a.z - b.z) * (a.z - b.z)

/-- Speed-limit sign, mirroring
pylot.perception.detection.speed_limit_sign.SpeedLimitSign: world pose,
the posted limit, and the mutable 2D bounding-box field the matcher
assigns. -/
structure SpeedLimitSign where
  transform : Transform
  speed_limit : ℚ
  bounding_box : Option BoundingBox2D

instance : Inhabited SpeedLimitSign := ⟨⟨default, 0, none⟩⟩

/-- The inner `for ts in speed_signs` loop of
match_bboxes_with_speed_signs: running over the signs (indexed from `i`),
keep the index and squared distance of the best sign so far, starting
from `(None, 1000000)` (squared: 10^12); the strict `dist < best_dist`
update keeps the first sign attaining the minimum. -/
def findBest (location : Location) : List SpeedLimitSign → ℕ → Option ℕ × ℚ →
    Option ℕ × ℚ
  | [], _, best => best
  | ts :: rest, i, best =>
      let dist := dist_sq location ts.transform.location
      findBest location rest (i + 1) (if dist < best.2 then (some i, dist) else best)

/-- Yaw-difference normalization from match_bboxes_with_speed_signs:
`if yaw_diff < 0: yaw_diff += 360 elif yaw_diff >= 360: yaw_diff -= 360`. -/
def normalize_yaw (yaw_diff : ℚ) : ℚ :=
  if yaw_diff < 0 then yaw_diff + 360
  else if yaw_diff ≥ 360 then yaw_diff - 360
  else yaw_diff

/-- Sets the sign's bounding-box field (the in-place mutation
`best_ts.bounding_box = bbox`). -/
def setBoundingBox (ts : SpeedLimitSign) (bbox : BoundingBox2D) : SpeedLimitSign :=
  { ts with bounding_box := some bbox }

/-- Body of the outer `for location, bbox in loc_bboxes` loop of
match_bboxes_with_speed_signs, acting on the sign store and the result
list (of store indices; Python's `result` holds references into the
mutated `speed_signs`, which the indices make explicit). -/
def processOne (camera_transform : Transform)
    (st : List SpeedLimitSign × List ℕ) (lb : Location × BoundingBox2D) :
    List SpeedLimitSign × List ℕ :=
  let signs := st.1
  let best := findBest lb.1 signs 0 (none, 1000000000000)
  match best.1 with
  | none => st
  | some i =>
      let best_ts := signs.getD i default
      let yaw_diff := normalize_yaw
        (best_ts.transform.rotation.yaw - camera_transform.rotation.yaw)
      if best.2 < 625 ∧ yaw_diff > 30 ∧ yaw_diff < 150 then
        (signs.set i (setBoundingBox best_ts lb.2), st.2 ++ [i])
      else
        st

/-- match_bboxes_with_speed_signs (inner function of
get_detected_speed_limits): folds processOne over the (location, bbox)
pairs, returning the final sign store and the matched indices in result
order. -/
def match_bboxes_with_speed_signs (camera_transform : Transform)
    (loc_bboxes : List (Location × BoundingBox2D))
    (speed_signs : List SpeedLimitSign) : List SpeedLimitSign × List ℕ :=
  loc_bboxes.foldl (processOne camera_transform) (speed_signs, [])

/-- Projection of a world point into camera view
(pylot.utils.Location.to_camera_view, outside src/): pixel x, pixel y and
depth along the camera forward axis. -/
structure CameraView where
  x : ℚ
  y : ℚ
  z : ℚ
  deriving DecidableEq

instance : Inhabited CameraView := ⟨⟨0, 0, 0⟩⟩

/-- Camera setup of a frame: image size, camera transform, and `view`,
which models `Location.to_camera_view` applied with this camera's
extrinsic matrix (`get_transform().matrix`) and intrinsic matrix
(Modelled from the spec: pinhole projection; outside src/, kept as a
function field). -/
structure CameraSetup where
  width : ℕ
  height : ℕ
  transform : Transform
  view : Location → CameraView

/-- Depth frame, mirroring pylot.perception.depth_frame.DepthFrame.  The
two methods used by src/ are kept as function fields: `pixel_locations`
models get_pixel_locations (pixel → world lookup) and
`pixel_has_same_depth` the depth-consistency probe (both outside src/,
modelled from the spec's depth-buffer accessor). -/
structure DepthFrame where
  camera_setup : CameraSetup
  pixel_locations : List (ℚ × ℚ) → List Location
  pixel_has_same_depth : ℤ → ℤ → ℚ → ℚ → Bool

/-- Segmented frame: the single method src/ uses,
get_traffic_sign_bounding_boxes (min_width, min_height), modelled from
the spec as scanning the class-segmentation mask for target-class boxes
(outside src/, kept as a function field). -/
structure SegmentedFrame where
  get_traffic_sign_bounding_boxes : ℕ → ℕ → List BoundingBox2D

/-- Modelled from the spec: BoundingBox2D.get_center_point (outside src/)
returns the center pixel of the box. -/
def get_center_point (bbox : BoundingBox2D) : ℚ × ℚ :=
  (((bbox.x_min : ℚ) + bbox.x_max) / 2, ((bbox.y_min : ℚ) + bbox.y_max) / 2)

/-- get_detected_speed_limits.  A missing/ill-typed depth frame is the
`none` case of the option, on which the source raises
`ValueError('depth_frame should be of type
perception.depth_frame.DepthFrame')`, embedded as `.error`.  On success
returns the final sign store together with the matched indices
(`result`). -/
def get_detected_speed_limits (speed_signs : List SpeedLimitSign)
    (depth_frame : Option DepthFrame) (segmented_frame : SegmentedFrame) :
    Except String (List SpeedLimitSign × List ℕ) :=
  match depth_frame with
  | none =>
      .error ("depth_frame should be of type perception.depth_frame.DepthFrame")
  | some df =>
      let bboxes_2d := segmented_frame.get_traffic_sign_bounding_boxes 8 9
      let coordinates := bboxes_2d.map get_center_point
      let locations := df.pixel_locations coordinates
      let loc_and_bboxes := locations.zip bboxes_2d
      .ok (match_bboxes_with_speed_signs df.camera_setup.transform
        loc_and_bboxes speed_signs)

/-! ### Stop-sign trigger-volume footprint (get_detected_traffic_stops) -/

/-- 3D bounding box of a stop sign's trigger volume: a transform and an
extent, mirroring the fields read from `stop_sign.bounding_box_3d`. -/
structure BoundingBox3D where
  transform : Transform
  extent : Location

instance : Inhabited BoundingBox3D := ⟨⟨default, default⟩⟩

/-- Stop sign, mirroring pylot.perception.detection.stop_sign.StopSign:
world pose, the 3D trigger-volume box, and the mutable 2D bounding-box
field. -/
structure StopSign where
  transform : Transform
  bounding_box_3d : BoundingBox3D
  bounding_box : Option BoundingBox2D

instance : Inhabited StopSign := ⟨⟨default, default, none⟩⟩

/-- Python's `int()` truncation toward zero on a rational. -/
def pyInt (q : ℚ) : ℤ :=
  if q ≥ 0 then ⌊q⌋ else ⌈q⌉

/-- Corner-validity test of get_stop_markings_bbox: the projected corner
must have non-negative depth and lie inside the image bounds
(`loc_view.z >= 0 and loc_view.x >= 0 and loc_view.y >= 0 and
loc_view.x < width and loc_view.y < height`). -/
def valid_corner (cs : CameraSetup) (v : CameraView) : Bool :=
  v.z ≥ 0 ∧ v.x ≥ 0 ∧ v.y ≥ 0 ∧ v.x < (cs.width : ℚ) ∧ v.y < (cs.height : ℚ)

/-- The four ground-adjusted footprint corners of a trigger volume: the
extent corners with the z-extent lowered by 0.85 so the top plane sits on
the ground, then mapped through the box transform
(`transform_locations`). -/
def footprint_corners (bbox3d : BoundingBox3D) : List Location :=
  let ext_z_value := bbox3d.extent.z - 17 / 20
  let ext := [
    Location.mk bbox3d.extent.x bbox3d.extent.y ext_z_value,
    Location.mk bbox3d.extent.x (-bbox3d.extent.y) ext_z_value,
    Location.mk (-bbox3d.extent.x) bbox3d.extent.y ext_z_value,
    Location.mk (-bbox3d.extent.x) (-bbox3d.extent.y) ext_z_value]
  ext.map bbox3d.transform.transform_locations

/-- The camera views of the four footprint corners, in source order. -/
def corner_views (bbox3d : BoundingBox3D) (df : DepthFrame) : List CameraView :=
  (footprint_corners bbox3d).map df.camera_setup.view

/-- get_stop_markings_bbox (inner function of get_detected_traffic_stops):
projects the four ground-adjusted footprint corners, keeps the valid
ones, and only when all four are valid derives the 2D box from their
extrema, requiring the box height to exceed 15 pixels and the
depth-consistency probe at the first corner (tolerance 0.4) to pass. -/
def get_stop_markings_bbox (bbox3d : BoundingBox3D) (df : DepthFrame) :
    Option BoundingBox2D :=
  let coords := (corner_views bbox3d df).filter (valid_corner df.camera_setup)
  if coords.length = 4 then
    let c0 := coords.getD 0 default
    let c1 := coords.getD 1 default
    let c2 := coords.getD 2 default
    let c3 := coords.getD 3 default
    let xmin := min (min c0.x c1.x) (min c2.x c3.x)
    let xmax := max (max c0.x c1.x) (max c2.x c3.x)
    let ymin := min (min c0.y c1.y) (min c2.y c3.y)
    let ymax := max (max c0.y c1.y) (max c2.y c3.y)
    if ymax - ymin > 15 ∧
        df.pixel_has_same_depth (pyInt c0.x) (pyInt c0.y) c0.z (2 / 5) then
      some ⟨pyInt xmin, pyInt xmax, pyInt ymin, pyInt ymax⟩
    else
      none
  else
    none

/-- Sets the stop sign's bounding-box field (the in-place mutation
`stop_sign.bounding_box = bbox_2d`). -/
def setStopBoundingBox (s : StopSign) (bbox : BoundingBox2D) : StopSign :=
  { s with bounding_box := some bbox }

/-- get_detected_traffic_stops: the same ValueError on a missing depth
frame, otherwise for each stop sign compute the footprint box and, when
one is found, set the sign's bounding-box field and append it to the
detected list.  Returns the detected signs and the (post-mutation) full
sign list. -/
def get_detected_traffic_stops (traffic_stops : List StopSign)
    (depth_frame : Option DepthFrame) :
    Except String (List StopSign × List StopSign) :=
  match depth_frame with
  | none =>
      .error ("depth_frame should be of type perception.depth_frame.DepthFrame")
  | some df =>
      let updated := traffic_stops.map (fun stop_sign =>
        match get_stop_markings_bbox stop_sign.bounding_box_3d df with
        | some bbox_2d => (setStopBoundingBox stop_sign bbox_2d, true)
        | none => (stop_sign, false))
      .ok (((updated.filter (·.2)).map (·.1)), updated.map (·.1))

/-- Spec-side detection condition for a stop sign, written from the
spec's words for comparison with get_stop_markings_bbox: all four
projected footprint corners are valid (inside the image bounds, depth not
negative), the derived box height exceeds the minimum readability
threshold 15, and the depth-consistency probe at the first corner
(tolerance 0.4) passes. -/
def stop_detected_spec (bbox3d : BoundingBox3D) (df : DepthFrame) : Prop :=
  let vs := corner_views bbox3d df
  let c0 := vs.getD 0 default
  let c1 := vs.getD 1 default
  let c2 := vs.getD 2 default
  let c3 := vs.getD 3 default
  vs.all (valid_corner df.camera_setup) = true ∧
  max (max c0.y c1.y) (max c2.y c3.y) -
    min (min c0.y c1.y) (min c2.y c3.y) > 15 ∧
  df.pixel_has_same_depth (pyInt c0.x) (pyInt c0.y) c0.z (2 / 5) = true

/-! ## ChauffeurLoggerOperator (chauffeur_logger_operator.py) -/

namespace ChauffeurLoggerOperator

/-- self._buffer_length. -/
def buffer_length : ℕ := 10

/-- The transform-history state of ChauffeurLoggerOperator:
`_global_transforms` (a deque with maxlen 10, front at the list head),
`_previous_transform` and `_current_transform`. -/
structure State where
  global_transforms : List Transform
  previous_transform : Option Transform
  current_transform : Option Transform

/-- Initial state from `__init__`: empty history, no transforms yet. -/
def initState : State := ⟨[], none, none⟩

/-- The transform bookkeeping of on_can_bus_update: record the current
transform, top the deque up to `_buffer_length` copies of it (the
`while len(...) != self._buffer_length: append` warmup; the queue length
never exceeds 10, so the topping-up is the replicate), pop the front into
`_previous_transform`, and append the current transform at the back. -/
def on_can_bus_update (s : State) (transform : Transform) : State :=
  let filled := s.global_transforms ++
    List.replicate (buffer_length - s.global_transforms.length) transform
  { global_transforms := filled.tail ++ [transform]
    previous_transform := filled.head?
    current_transform := some transform }

/-- Runs on_can_bus_update over the list of received transforms, oldest
first. -/
def runUpdates (transforms : List Transform) : State :=
  transforms.foldl on_can_bus_update initState

end ChauffeurLoggerOperator

end Pylot

namespace Pylot

/-! ## Theorems -/

/-- C1: the claim says the adjusted target speed is halved exactly when
the path angular-rate magnitude is at least the cornering threshold
(0.1), matching the source comment "Don't go to fast around corners";
the code does the opposite.  Evaluating the embedded code with nominal
target speed 10 and speed_factor 1: at angular rate 0.2 (cornering, at or
above the threshold) the target speed stays 10 (not halved), while at
angular rate 0 (straight path, below the threshold) it is halved to 5. -/
theorem claim_C1_code_eval :
    target_speed_adjusted ⟨10, 1⟩ (1 / 5) 1 = 10 ∧
      target_speed_adjusted ⟨10, 1⟩ 0 1 = 5 := by
  have h5 : |(1 / 5 : ℚ)| = 1 / 5 := abs_of_pos (by norm_num)
  constructor
  · rw [target_speed_adjusted, if_neg (by rw [h5]; norm_num)]
    norm_num
  · rw [target_speed_adjusted, if_pos (by rw [abs_zero]; norm_num)]
    norm_num

/-- C5: with a negative current speed, get_control_message signals the
fatal precondition error (the source's `assert current_speed >= 0,
'Current speed is negative'`) and the watermark step emits no control
command for that timestep. -/
theorem claim_C5 {O L : Type} (flags : Flags) (ctb : ℚ → ℚ → ℚ × ℚ)
    (sfa : Location → ℚ → Location → ℚ → List O → List L → ℚ × ℕ)
    (cb : CanBusData) (cbs : List CanBusData)
    (ob : List O) (obs : List (List O))
    (tl : List L) (tls : List (List L))
    (wp : WaypointMsg) (wps : List WaypointMsg) (t : ℕ)
    (hneg : cb.forward_speed < 0) :
    get_control_message flags ctb wp.wp_angle wp.wp_angle_speed
        (sfa cb.transform.location wp.wp_angle wp.wp_vector wp.wp_angle_speed
          ob tl).1 cb.forward_speed t =
      .error ("Current speed is negative") ∧
    step flags ctb sfa ⟨cb :: cbs, ob :: obs, tl :: tls, wp :: wps⟩
        (.watermark t) = (⟨cbs, obs, tls, wps⟩, []) := by
  have h : ¬ cb.forward_speed ≥ 0 := not_le.mpr hneg
  refine ⟨?_, ?_⟩
  · rw [get_control_message, if_neg h]
  · simp only [step, on_watermark, get_control_message, if_neg h]

/-- C5 witness: a concrete run with current speed −1 hits the fatal
error and produces no command. -/
theorem claim_C5_witness :
    get_control_message ⟨10, 1⟩ (fun _ _ => (0, 0)) 0 0
        ((fun (_ : Location) (_ : ℚ) (_ : Location) (_ : ℚ)
            (_ : List Unit) (_ : List Unit) => ((1 : ℚ), (0 : ℕ)))
          (Transform.mk default default id).location 0 ⟨0, 0, 0⟩ 0 [] []).1
        (-1) 7 =
      .error ("Current speed is negative") ∧
    step ⟨10, 1⟩ (fun _ _ => (0, 0))
        (fun _ _ _ _ _ _ => ((1 : ℚ), (0 : ℕ)))
        ⟨[⟨Transform.mk default default id, -1⟩], [([] : List Unit)],
          [([] : List Unit)], [⟨0, ⟨0, 0, 0⟩, 0⟩]⟩ (.watermark 7) =
      (⟨[], [], [], []⟩, []) := by
  exact claim_C5 ⟨10, 1⟩ (fun _ _ => (0, 0))
    (fun _ _ _ _ _ _ => ((1 : ℚ), (0 : ℕ)))
    ⟨Transform.mk default default id, -1⟩ [] [] [] [] [] ⟨0, ⟨0, 0, 0⟩, 0⟩ [] 7
    (by norm_num)

/-- Helper: a control message produced by get_control_message carries the
watermark timestamp it was called with. -/
theorem get_control_message_timestamp (flags : Flags) (ctb : ℚ → ℚ → ℚ × ℚ)
    (a b c d : ℚ) (t : ℕ) (msg : ControlMessage)
    (h : get_control_message flags ctb a b c d t = .ok msg) :
    msg.timestamp = t := by
  rw [get_control_message] at h
  split at h
  · cases h
    rfl
  · cases h

/-- Helper: a message emitted by on_watermark carries the watermark
timestamp. -/
theorem on_watermark_emit_timestamp {O L : Type} (flags : Flags)
    (ctb : ℚ → ℚ → ℚ × ℚ)
    (sfa : Location → ℚ → Location → ℚ → List O → List L → ℚ × ℕ)
    (s : AgentState O L) (t : ℕ) (s' : AgentState O L) (msg : ControlMessage)
    (h : on_watermark flags ctb sfa s t = some (s', some msg)) :
    msg.timestamp = t := by
  rcases s with ⟨q1, q2, q3, q4⟩
  rcases q1 with _ | ⟨cb, cbs⟩ <;> rcases q2 with _ | ⟨ob, obs⟩ <;>
    rcases q3 with _ | ⟨tl, tls⟩ <;> rcases q4 with _ | ⟨wp, wps⟩ <;>
    simp only [on_watermark] at h <;> try cases h
  split at h
  case _ m heq =>
    cases h
    exact get_control_message_timestamp _ _ _ _ _ _ _ _ heq
  case _ e heq =>
    cases h

/-- Helper: the timestamps of the messages emitted over any event trace
form a sublist of the timesteps of the watermark events of that trace,
in order. -/
theorem runEvents_timestamps_sublist {O L : Type} (flags : Flags)
    (ctb : ℚ → ℚ → ℚ × ℚ)
    (sfa : Location → ℚ → Location → ℚ → List O → List L → ℚ × ℕ) :
    ∀ (es : List (Event O L)) (s : AgentState O L),
      ((runEvents flags ctb sfa s es).map ControlMessage.timestamp).Sublist
        (es.filterMap Event.watermarkTime)
  | [], s => by simp [runEvents]
  | e :: es, s => by
    cases e with
    | canBus m =>
        simpa [runEvents, step, Event.watermarkTime] using
          runEvents_timestamps_sublist flags ctb sfa es _
    | obstacles m =>
        simpa [runEvents, step, Event.watermarkTime] using
          runEvents_timestamps_sublist flags ctb sfa es _
    | trafficLights m =>
        simpa [runEvents, step, Event.watermarkTime] using
          runEvents_timestamps_sublist flags ctb sfa es _
    | waypoints m =>
        simpa [runEvents, step, Event.watermarkTime] using
          runEvents_timestamps_sublist flags ctb sfa es _
    | watermark t =>
        rcases hw : on_watermark flags ctb sfa s t with _ | ⟨s', _ | msg⟩
        · simpa [runEvents, step, Event.watermarkTime, hw] using
            (runEvents_timestamps_sublist flags ctb sfa es s).cons t
        · simpa [runEvents, step, Event.watermarkTime, hw] using
            (runEvents_timestamps_sublist flags ctb sfa es s').cons t
        · have hts := on_watermark_emit_timestamp flags ctb sfa s t s' msg hw
          simpa [runEvents, step, Event.watermarkTime, hw, hts] using
            (runEvents_timestamps_sublist flags ctb sfa es s').cons₂ t

/-- C4: over any event trace, control commands are sent only by watermark
steps, at most one per watermark; the emitted timestamps form a sublist
of the fired watermark timesteps (hence non-decreasing watermark order
gives non-decreasing emission order, and distinct watermark timesteps
give at most one command per timestep); a watermark step with all four
queues non-empty consumes exactly the head of each per-source FIFO queue
and stamps any emitted command with the watermark timestep; a watermark
with some queue still empty emits nothing; and arrival events only append
to their own queue and emit nothing. -/
theorem claim_C4 {O L : Type} (flags : Flags) (ctb : ℚ → ℚ → ℚ × ℚ)
    (sfa : Location → ℚ → Location → ℚ → List O → List L → ℚ × ℕ) :
    (∀ (s : AgentState O L) (es : List (Event O L)),
      ((runEvents flags ctb sfa s es).map ControlMessage.timestamp).Sublist
        (es.filterMap Event.watermarkTime)) ∧
    (∀ (s : AgentState O L) (es : List (Event O L)),
      (es.filterMap Event.watermarkTime).Pairwise (· ≤ ·) →
      ((runEvents flags ctb sfa s es).map
        ControlMessage.timestamp).Pairwise (· ≤ ·)) ∧
    (∀ (s : AgentState O L) (es : List (Event O L)),
      (es.filterMap Event.watermarkTime).Nodup →
      ((runEvents flags ctb sfa s es).map ControlMessage.timestamp).Nodup) ∧
    (∀ (cb : CanBusData) (cbs : List CanBusData) (ob : List O)
        (obs : List (List O)) (tl : List L) (tls : List (List L))
        (wp : WaypointMsg) (wps : List WaypointMsg) (t : ℕ),
      ∃ out,
        step flags ctb sfa ⟨cb :: cbs, ob :: obs, tl :: tls, wp :: wps⟩
            (.watermark t) = (⟨cbs, obs, tls, wps⟩, out) ∧
        out.length ≤ 1 ∧ ∀ m ∈ out, m.timestamp = t) ∧
    (∀ (s : AgentState O L) (t : ℕ),
      (s.can_bus_msgs = [] ∨ s.obstacle_msgs = [] ∨
        s.traffic_light_msgs = [] ∨ s.waypoint_msgs = []) →
      step flags ctb sfa s (.watermark t) = (s, [])) ∧
    (∀ (s : AgentState O L) m, step flags ctb sfa s (.canBus m) =
      ({ s with can_bus_msgs := s.can_bus_msgs ++ [m] }, [])) ∧
    (∀ (s : AgentState O L) m, step flags ctb sfa s (.obstacles m) =
      ({ s with obstacle_msgs := s.obstacle_msgs ++ [m] }, [])) ∧
    (∀ (s : AgentState O L) m, step flags ctb sfa s (.trafficLights m) =
      ({ s with traffic_light_msgs := s.traffic_light_msgs ++ [m] }, [])) ∧
    (∀ (s : AgentState O L) m, step flags ctb sfa s (.waypoints m) =
      ({ s with waypoint_msgs := s.waypoint_msgs ++ [m] }, [])) := by
  refine ⟨fun s es => runEvents_timestamps_sublist flags ctb sfa es s,
    fun s es hp => hp.sublist (runEvents_timestamps_sublist flags ctb sfa es s),
    fun s es hn => hn.sublist (runEvents_timestamps_sublist flags ctb sfa es s),
    ?_, ?_, fun s m => rfl, fun s m => rfl, fun s m => rfl, fun s m => rfl⟩
  · intro cb cbs ob obs tl tls wp wps t
    rcases hg : get_control_message flags ctb wp.wp_angle wp.wp_angle_speed
        (sfa cb.transform.location wp.wp_angle wp.wp_vector wp.wp_angle_speed
          ob tl).1 cb.forward_speed t with e | msg
    · exact ⟨[], by simp only [step, on_watermark, hg], by simp⟩
    · refine ⟨[msg], by simp only [step, on_watermark, hg], by simp, ?_⟩
      intro m hm
      rcases List.mem_singleton.mp hm with rfl
      exact get_control_message_timestamp _ _ _ _ _ _ _ _ hg
  · intro s t h
    rcases s with ⟨q1, q2, q3, q4⟩
    rcases q1 with _ | ⟨cb, cbs⟩ <;> rcases q2 with _ | ⟨ob, obs⟩ <;>
      rcases q3 with _ | ⟨tl, tls⟩ <;> rcases q4 with _ | ⟨wp, wps⟩ <;>
      first
      | rfl
      | (exfalso; simp only [] at h; rcases h with h | h | h | h <;> cases h)

/-- C4 witness: on a concrete five-event trace (one arrival per source
followed by one watermark) the emitted timestamps are ordered, and a
watermark fired against an empty set of queues emits nothing. -/
theorem claim_C4_witness :
    ((runEvents ⟨10, 1⟩ (fun _ _ => (1, 0)) (fun _ _ _ _ _ _ => (1, 0))
        (⟨[], [], [], []⟩ : AgentState Unit Unit)
        [Event.canBus ⟨Transform.mk default default id, 0⟩,
         Event.obstacles [], Event.trafficLights [],
         Event.waypoints ⟨0, ⟨0, 0, 0⟩, 1⟩,
         Event.watermark 5]).map ControlMessage.timestamp).Pairwise (· ≤ ·) ∧
    step ⟨10, 1⟩ (fun _ _ => (1, 0)) (fun _ _ _ _ _ _ => (1, 0))
        (⟨[], [], [], []⟩ : AgentState Unit Unit)
        (.watermark 5) = (⟨[], [], [], []⟩, []) := by
  refine ⟨(claim_C4 _ _ _).2.1 _ _ ?_, (claim_C4 _ _ _).2.2.2.2.1 _ _ ?_⟩
  · simp [Event.watermarkTime]
  · exact Or.inl rfl

/-- Helper: full characterization of the inner best-candidate loop.  The
returned best value never exceeds the accumulator it started from, is a
lower bound of every candidate distance in the scanned list, and is
either the untouched accumulator or the first candidate attaining the
minimum (strictly better than the initial accumulator and strictly better
than every earlier candidate). -/
theorem findBest_go_spec (loc : Location) :
    ∀ (l : List SpeedLimitSign) (i : ℕ) (b : Option ℕ × ℚ),
      (findBest loc l i b).2 ≤ b.2 ∧
      (∀ j, j < l.length →
        (findBest loc l i b).2 ≤
          dist_sq loc ((l.getD j default).transform.location)) ∧
      (findBest loc l i b = b ∨
        ∃ k, k < l.length ∧
          findBest loc l i b =
            (some (i + k), dist_sq loc ((l.getD k default).transform.location)) ∧
          dist_sq loc ((l.getD k default).transform.location) < b.2 ∧
          ∀ j, j < k →
            (findBest loc l i b).2 <
              dist_sq loc ((l.getD j default).transform.location))
  | [], i, b => ⟨le_refl _, by simp, Or.inl rfl⟩
  | ts :: rest, i, b => by
    by_cases hD : dist_sq loc ts.transform.location < b.2
    · have IH := findBest_go_spec loc rest (i + 1)
        (some i, dist_sq loc ts.transform.location)
      obtain ⟨ih1, ih2, ih3⟩ := IH
      have hred : findBest loc (ts :: rest) i b =
          findBest loc rest (i + 1) (some i, dist_sq loc ts.transform.location) := by
        simp only [findBest, if_pos hD]
      rw [hred]
      refine ⟨ih1.trans (le_of_lt hD), ?_, ?_⟩
      · intro j hj
        cases j with
        | zero => simpa using ih1
        | succ j' =>
          simpa [List.getD_cons_succ] using ih2 j' (by simpa using hj)
      · rcases ih3 with he | ⟨k, hk, heq, hlt, hfirst⟩
        · right
          refine ⟨0, by simp, ?_, by simpa using hD, by simp⟩
          simpa [List.getD_cons_zero] using he
        · right
          refine ⟨k + 1, by simpa using hk, ?_, ?_, ?_⟩
          · have harith : i + (k + 1) = i + 1 + k := by omega
            rw [harith, List.getD_cons_succ]
            exact heq
          · exact lt_trans (by simpa [List.getD_cons_succ] using hlt) hD
          · intro j hj
            cases j with
            | zero =>
              have : (findBest loc rest (i + 1)
                  (some i, dist_sq loc ts.transform.location)).2 =
                  dist_sq loc ((rest.getD k default).transform.location) := by
                rw [heq]
              rw [List.getD_cons_zero, this]
              simpa using hlt
            | succ j' =>
              simpa [List.getD_cons_succ] using hfirst j' (by omega)
    · have IH := findBest_go_spec loc rest (i + 1) b
      obtain ⟨ih1, ih2, ih3⟩ := IH
      have hred : findBest loc (ts :: rest) i b =
          findBest loc rest (i + 1) b := by
        simp only [findBest, if_neg hD]
      rw [hred]
      refine ⟨ih1, ?_, ?_⟩
      · intro j hj
        cases j with
        | zero => simpa using ih1.trans (not_lt.mp hD)
        | succ j' =>
          simpa [List.getD_cons_succ] using ih2 j' (by simpa using hj)
      · rcases ih3 with he | ⟨k, hk, heq, hlt, hfirst⟩
        · exact Or.inl he
        · right
          refine ⟨k + 1, by simpa using hk, ?_, ?_, ?_⟩
          · have harith : i + (k + 1) = i + 1 + k := by omega
            rw [harith, List.getD_cons_succ]
            exact heq
          · simpa [List.getD_cons_succ] using hlt
          · intro j hj
            cases j with
            | zero =>
              have hr2 : (findBest loc rest (i + 1) b).2 =
                  dist_sq loc ((rest.getD k default).transform.location) := by
                rw [heq]
              rw [List.getD_cons_zero, hr2]
              exact lt_of_lt_of_le hlt (not_lt.mp hD)
            | succ j' =>
              simpa [List.getD_cons_succ] using hfirst j' (by omega)

/-- Helper: per-box characterization of the matcher loop body.  Each
(location, bbox) pair either leaves the state untouched (the box is
discarded) or assigns the box to the first nearest sign, which must be
strictly within the squared-distance threshold 625 (the source's
`best_dist < 5**2` on plain distances) and inside the normalized yaw band
(30, 150). -/
theorem processOne_spec (cam : Transform) (signs : List SpeedLimitSign)
    (res : List ℕ) (lb : Location × BoundingBox2D) :
    processOne cam (signs, res) lb = (signs, res) ∨
    ∃ i, i < signs.length ∧
      processOne cam (signs, res) lb =
        (signs.set i (setBoundingBox (signs.getD i default) lb.2), res ++ [i]) ∧
      dist_sq lb.1 ((signs.getD i default).transform.location) < 625 ∧
      (∀ j, j < signs.length →
        dist_sq lb.1 ((signs.getD i default).transform.location) ≤
          dist_sq lb.1 ((signs.getD j default).transform.location)) ∧
      (∀ j, j < i →
        dist_sq lb.1 ((signs.getD i default).transform.location) <
          dist_sq lb.1 ((signs.getD j default).transform.location)) ∧
      30 < normalize_yaw ((signs.getD i default).transform.rotation.yaw -
        cam.rotation.yaw) ∧
      normalize_yaw ((signs.getD i default).transform.rotation.yaw -
        cam.rotation.yaw) < 150 := by
  obtain ⟨h1, h2, h3⟩ := findBest_go_spec lb.1 signs 0 (none, 1000000000000)
  rcases hr : findBest lb.1 signs 0 (none, 1000000000000) with ⟨oi, d⟩
  rw [hr] at h1 h2 h3
  rcases oi with _ | i
  · left
    simp only [processOne, hr]
  · rcases h3 with he | ⟨k, hk, heq, hlt, hfirst⟩
    · exact absurd (congrArg Prod.fst he) (by simp)
    · have hik : i = k := by
        have := congrArg Prod.fst heq
        simp only [Nat.zero_add] at this
        exact Option.some.injEq _ _ ▸ (by simpa using this)
      subst hik
      have hd : d = dist_sq lb.1 ((signs.getD i default).transform.location) := by
        simpa using congrArg Prod.snd heq
      by_cases hc : d < 625 ∧
          normalize_yaw ((signs.getD i default).transform.rotation.yaw -
            cam.rotation.yaw) > 30 ∧
          normalize_yaw ((signs.getD i default).transform.rotation.yaw -
            cam.rotation.yaw) < 150
      · right
        refine ⟨i, hk, ?_, hd ▸ hc.1, fun j hj => hd ▸ h2 j hj,
          fun j hj => hd ▸ hfirst j hj, hc.2.1, hc.2.2⟩
        simp only [processOne, hr, if_pos hc]
      · left
        simp only [processOne, hr, if_neg hc]

/-- C7: for every 2D box processed by the matcher (processOne is the body
of the per-box loop of match_bboxes_with_speed_signs, quantified here
over every reachable store/result state), either the box is discarded
with no orphan detection (state unchanged), or it is assigned to the
candidate at minimum distance (first-seen among ties), and the assignment
is kept only when that distance is below the maximum-distance threshold
(squared distance < 625, i.e. distance < 5**2) and the normalized yaw
difference between sign and camera lies strictly inside the (30, 150)
band. -/
theorem claim_C7 (cam : Transform) (signs : List SpeedLimitSign)
    (res : List ℕ) (lb : Location × BoundingBox2D) :
    processOne cam (signs, res) lb = (signs, res) ∨
    ∃ i, i < signs.length ∧
      processOne cam (signs, res) lb =
        (signs.set i (setBoundingBox (signs.getD i default) lb.2), res ++ [i]) ∧
      dist_sq lb.1 ((signs.getD i default).transform.location) < 625 ∧
      (∀ j, j < signs.length →
        dist_sq lb.1 ((signs.getD i default).transform.location) ≤
          dist_sq lb.1 ((signs.getD j default).transform.location)) ∧
      30 < normalize_yaw ((signs.getD i default).transform.rotation.yaw -
        cam.rotation.yaw) ∧
      normalize_yaw ((signs.getD i default).transform.rotation.yaw -
        cam.rotation.yaw) < 150 := by
  rcases processOne_spec cam signs res lb with h | ⟨i, hi, heq, hthr, hmin, _, hy1, hy2⟩
  · exact Or.inl h
  · exact Or.inr ⟨i, hi, heq, hthr, hmin, hy1, hy2⟩

/-- C7 witness: a concrete box at distance 1 from the only sign (yaw
difference 100) is assigned to that sign. -/
theorem claim_C7_witness :
    processOne ⟨⟨0, 0, 0⟩, ⟨0, 0, 0⟩, id⟩
        ([⟨⟨⟨0, 0, 0⟩, ⟨0, 100, 0⟩, id⟩, 30, none⟩], [])
        (⟨1, 0, 0⟩, ⟨2, 3, 2, 3⟩) =
      ([⟨⟨⟨0, 0, 0⟩, ⟨0, 100, 0⟩, id⟩, 30, none⟩], []) ∨
    ∃ i, i < ([⟨⟨⟨0, 0, 0⟩, ⟨0, 100, 0⟩, id⟩, 30, none⟩] :
        List SpeedLimitSign).length ∧
      processOne ⟨⟨0, 0, 0⟩, ⟨0, 0, 0⟩, id⟩
          ([⟨⟨⟨0, 0, 0⟩, ⟨0, 100, 0⟩, id⟩, 30, none⟩], [])
          (⟨1, 0, 0⟩, ⟨2, 3, 2, 3⟩) =
        (([⟨⟨⟨0, 0, 0⟩, ⟨0, 100, 0⟩, id⟩, 30, none⟩] :
            List SpeedLimitSign).set i
          (setBoundingBox (([⟨⟨⟨0, 0, 0⟩, ⟨0, 100, 0⟩, id⟩, 30, none⟩] :
            List SpeedLimitSign).getD i default) ⟨2, 3, 2, 3⟩),
          [] ++ [i]) ∧
      dist_sq ⟨1, 0, 0⟩ ((([⟨⟨⟨0, 0, 0⟩, ⟨0, 100, 0⟩, id⟩, 30, none⟩] :
        List SpeedLimitSign).getD i default).transform.location) < 625 ∧
      (∀ j, j < ([⟨⟨⟨0, 0, 0⟩, ⟨0, 100, 0⟩, id⟩, 30, none⟩] :
          List SpeedLimitSign).length →
        dist_sq ⟨1, 0, 0⟩ ((([⟨⟨⟨0, 0, 0⟩, ⟨0, 100, 0⟩, id⟩, 30, none⟩] :
          List SpeedLimitSign).getD i default).transform.location) ≤
          dist_sq ⟨1, 0, 0⟩ ((([⟨⟨⟨0, 0, 0⟩, ⟨0, 100, 0⟩, id⟩, 30, none⟩] :
            List SpeedLimitSign).getD j default).transform.location)) ∧
      30 < normalize_yaw ((([⟨⟨⟨0, 0, 0⟩, ⟨0, 100, 0⟩, id⟩, 30, none⟩] :
        List SpeedLimitSign).getD i default).transform.rotation.yaw -
        (⟨⟨0, 0, 0⟩, ⟨0, 0, 0⟩, id⟩ : Transform).rotation.yaw) ∧
      normalize_yaw ((([⟨⟨⟨0, 0, 0⟩, ⟨0, 100, 0⟩, id⟩, 30, none⟩] :
        List SpeedLimitSign).getD i default).transform.rotation.yaw -
        (⟨⟨0, 0, 0⟩, ⟨0, 0, 0⟩, id⟩ : Transform).rotation.yaw) < 150 :=
  claim_C7 ⟨⟨0, 0, 0⟩, ⟨0, 0, 0⟩, id⟩
    [⟨⟨⟨0, 0, 0⟩, ⟨0, 100, 0⟩, id⟩, 30, none⟩] []
    (⟨1, 0, 0⟩, ⟨2, 3, 2, 3⟩)

/-- C2 (amended): each 2D box contributes at most one assignment, and the
assigned candidate is the first nearest sign (ties between equally
distant candidates broken by first-seen order); the assignment over a
whole tick need not be 1:1, since distinct boxes may select the same
sign index. -/
theorem claim_C2_amended (cam : Transform) (signs : List SpeedLimitSign)
    (res : List ℕ) (lb : Location × BoundingBox2D) :
    (processOne cam (signs, res) lb).2 = res ∨
    ∃ i, i < signs.length ∧ (processOne cam (signs, res) lb).2 = res ++ [i] ∧
      ∀ j, j < i →
        dist_sq lb.1 ((signs.getD i default).transform.location) <
          dist_sq lb.1 ((signs.getD j default).transform.location) := by
  rcases processOne_spec cam signs res lb with h | ⟨i, hi, heq, _, _, hfirst, _, _⟩
  · exact Or.inl (by rw [h])
  · exact Or.inr ⟨i, hi, by rw [heq], hfirst⟩

/-- C2 witness: the single-sign store assigns the concrete box to sign
index 0, the first (and only) nearest candidate. -/
theorem claim_C2_amended_witness :
    (processOne ⟨⟨0, 0, 0⟩, ⟨0, 0, 0⟩, id⟩
        ([⟨⟨⟨0, 0, 0⟩, ⟨0, 100, 0⟩, id⟩, 30, none⟩], [])
        (⟨0, 0, 0⟩, ⟨0, 1, 0, 1⟩)).2 = [] ∨
    ∃ i, i < ([⟨⟨⟨0, 0, 0⟩, ⟨0, 100, 0⟩, id⟩, 30, none⟩] :
        List SpeedLimitSign).length ∧
      (processOne ⟨⟨0, 0, 0⟩, ⟨0, 0, 0⟩, id⟩
          ([⟨⟨⟨0, 0, 0⟩, ⟨0, 100, 0⟩, id⟩, 30, none⟩], [])
          (⟨0, 0, 0⟩, ⟨0, 1, 0, 1⟩)).2 = [] ++ [i] ∧
      ∀ j, j < i →
        dist_sq ⟨0, 0, 0⟩ ((([⟨⟨⟨0, 0, 0⟩, ⟨0, 100, 0⟩, id⟩, 30, none⟩] :
          List SpeedLimitSign).getD i default).transform.location) <
          dist_sq ⟨0, 0, 0⟩ ((([⟨⟨⟨0, 0, 0⟩, ⟨0, 100, 0⟩, id⟩, 30, none⟩] :
            List SpeedLimitSign).getD j default).transform.location) :=
  claim_C2_amended ⟨⟨0, 0, 0⟩, ⟨0, 0, 0⟩, id⟩
    [⟨⟨⟨0, 0, 0⟩, ⟨0, 100, 0⟩, id⟩, 30, none⟩] [] (⟨0, 0, 0⟩, ⟨0, 1, 0, 1⟩)

/-- C2 counterexample: with one speed sign (yaw 100, camera yaw 0) and
two 2D boxes whose inverse-projected locations are at distances 0 and 1
from it, both boxes pass the threshold and yaw checks against the same
sign, so the result list contains sign index 0 twice — the assignment is
not 1:1 as the claim states. -/
theorem claim_C2_counterexample :
    (match_bboxes_with_speed_signs ⟨⟨0, 0, 0⟩, ⟨0, 0, 0⟩, id⟩
        [(⟨0, 0, 0⟩, ⟨0, 1, 0, 1⟩), (⟨1, 0, 0⟩, ⟨2, 3, 2, 3⟩)]
        [⟨⟨⟨0, 0, 0⟩, ⟨0, 100, 0⟩, id⟩, 30, none⟩]).2 = [0, 0] ∧
    ¬ ([0, 0] : List ℕ).Nodup := by
  refine ⟨?_, by decide⟩
  norm_num [match_bboxes_with_speed_signs, processOne, findBest, dist_sq,
    normalize_yaw, setBoundingBox, List.getD]

/-- Helper: frame property of the matcher fold.  The sign store keeps its
length, the result list only grows at the back, every sign keeps its
transform and speed limit, and a sign whose index never entered the
result list is completely unchanged. -/
theorem matchLoop_frame (cam : Transform) :
    ∀ (lbs : List (Location × BoundingBox2D)) (st : List SpeedLimitSign × List ℕ),
      (List.foldl (processOne cam) st lbs).1.length = st.1.length ∧
      (∃ suf, (List.foldl (processOne cam) st lbs).2 = st.2 ++ suf) ∧
      (∀ i : ℕ, ((List.foldl (processOne cam) st lbs).1[i]?).map
        SpeedLimitSign.transform = (st.1[i]?).map SpeedLimitSign.transform) ∧
      (∀ i : ℕ, ((List.foldl (processOne cam) st lbs).1[i]?).map
        SpeedLimitSign.speed_limit = (st.1[i]?).map SpeedLimitSign.speed_limit) ∧
      (∀ i : ℕ, i ∉ (List.foldl (processOne cam) st lbs).2 →
        ((List.foldl (processOne cam) st lbs).1[i]?) = st.1[i]?)
  | [], st =>
    ⟨rfl, ⟨[], by simp⟩, fun i => rfl, fun i => rfl, fun i _ => rfl⟩
  | lb :: lbs, st => by
    simp only [List.foldl_cons]
    rcases processOne_spec cam st.1 st.2 lb with h | ⟨i, hi, heq, _, _, _, _, _⟩
    · have h' : processOne cam st lb = st := h
      rw [h']
      exact matchLoop_frame cam lbs st
    · have h' : processOne cam st lb =
          (st.1.set i (setBoundingBox (st.1.getD i default) lb.2),
            st.2 ++ [i]) := heq
      rw [h']
      obtain ⟨ih1, ⟨suf, hsuf⟩, ih3, ih4, ih5⟩ := matchLoop_frame cam lbs
        (st.1.set i (setBoundingBox (st.1.getD i default) lb.2), st.2 ++ [i])
      refine ⟨by simpa using ih1, ⟨[i] ++ suf, by rw [hsuf]; simp⟩, ?_, ?_, ?_⟩
      · intro i'
        rw [ih3 i']
        by_cases hii : i = i'
        · subst hii
          rw [List.getElem?_set_eq_of_lt _ hi, List.getElem?_eq_getElem hi]
          simp [setBoundingBox, List.getD, List.getElem?_eq_getElem hi]
        · rw [List.getElem?_set_ne hii]
      · intro i'
        rw [ih4 i']
        by_cases hii : i = i'
        · subst hii
          rw [List.getElem?_set_eq_of_lt _ hi, List.getElem?_eq_getElem hi]
          simp [setBoundingBox, List.getD, List.getElem?_eq_getElem hi]
        · rw [List.getElem?_set_ne hii]
      · intro i' hnot
        have hne : i ≠ i' := by
          intro hc
          subst hc
          exact hnot (by rw [hsuf]; simp)
        rw [ih5 i' hnot]
        exact List.getElem?_set_ne hne

/-- C9: over a whole matcher run and a whole stop-sign detection run, the
only change to any incoming object is the bounding-box field of matched
objects: sign stores keep their length, every sign keeps its transform
and speed limit (stop signs their transform and 3D box), signs whose
index never entered the result are unchanged, and a changed stop sign is
exactly its original with the bounding-box field set and appears in the
detected list. -/
theorem claim_C9 (cam : Transform)
    (loc_bboxes : List (Location × BoundingBox2D))
    (signs : List SpeedLimitSign) (stops : List StopSign) (df : DepthFrame) :
    (match_bboxes_with_speed_signs cam loc_bboxes signs).1.length =
      signs.length ∧
    (∀ i : ℕ, ((match_bboxes_with_speed_signs cam loc_bboxes signs).1[i]?).map
      SpeedLimitSign.transform = (signs[i]?).map SpeedLimitSign.transform) ∧
    (∀ i : ℕ, ((match_bboxes_with_speed_signs cam loc_bboxes signs).1[i]?).map
      SpeedLimitSign.speed_limit = (signs[i]?).map SpeedLimitSign.speed_limit) ∧
    (∀ i : ℕ, i ∉ (match_bboxes_with_speed_signs cam loc_bboxes signs).2 →
      ((match_bboxes_with_speed_signs cam loc_bboxes signs).1[i]?) =
        signs[i]?) ∧
    (∃ det upd, get_detected_traffic_stops stops (some df) = .ok (det, upd) ∧
      upd.length = stops.length ∧
      (∀ i : ℕ, (upd[i]?).map StopSign.transform =
        (stops[i]?).map StopSign.transform) ∧
      (∀ i : ℕ, (upd[i]?).map StopSign.bounding_box_3d =
        (stops[i]?).map StopSign.bounding_box_3d) ∧
      (∀ i : ℕ, upd[i]? ≠ stops[i]? →
        ∃ s bb, stops[i]? = some s ∧
          upd[i]? = some (setStopBoundingBox s bb) ∧
          setStopBoundingBox s bb ∈ det)) := by
  obtain ⟨h1, _, h3, h4, h5⟩ := matchLoop_frame cam loc_bboxes (signs, [])
  refine ⟨h1, h3, h4, h5, ?_⟩
  refine ⟨_, _, rfl, by simp, ?_, ?_, ?_⟩
  · intro i
    rw [List.getElem?_map, List.getElem?_map]
    cases h : stops[i]? with
    | none => rfl
    | some s =>
      cases hb : get_stop_markings_bbox s.bounding_box_3d df <;>
        simp [hb, setStopBoundingBox]
  · intro i
    rw [List.getElem?_map, List.getElem?_map]
    cases h : stops[i]? with
    | none => rfl
    | some s =>
      cases hb : get_stop_markings_bbox s.bounding_box_3d df <;>
        simp [hb, setStopBoundingBox]
  · intro i hne
    rw [List.getElem?_map, List.getElem?_map] at hne ⊢
    cases h : stops[i]? with
    | none => exact absurd (by rw [h]; rfl) hne
    | some s =>
      cases hb : get_stop_markings_bbox s.bounding_box_3d df with
      | none =>
        exact absurd (by simp [h, hb, setStopBoundingBox]) hne
      | some bb =>
        refine ⟨s, bb, rfl, by simp [h, hb], ?_⟩
        have hmem : s ∈ stops := List.getElem?_mem h
        have hmem2 : (setStopBoundingBox s bb, true) ∈ stops.map
            (fun stop_sign =>
              match get_stop_markings_bbox stop_sign.bounding_box_3d df with
              | some bbox_2d => (setStopBoundingBox stop_sign bbox_2d, true)
              | none => (stop_sign, false)) := by
          have hm := List.mem_map_of_mem (fun stop_sign =>
            match get_stop_markings_bbox stop_sign.bounding_box_3d df with
            | some bbox_2d => (setStopBoundingBox stop_sign bbox_2d, true)
            | none => (stop_sign, false)) hmem
          simpa [hb] using hm
        exact List.mem_map_of_mem _ (List.mem_filter.mpr ⟨hmem2, rfl⟩)

/-- C9 witness: with no 2D boxes and no stop signs, the single sign store
is returned unchanged and the stop-sign run succeeds with an empty update
list. -/
theorem claim_C9_witness :
    (match_bboxes_with_speed_signs ⟨⟨0, 0, 0⟩, ⟨0, 0, 0⟩, id⟩ []
        [⟨⟨⟨0, 0, 0⟩, ⟨0, 0, 0⟩, id⟩, 30, none⟩]).1.length =
      ([⟨⟨⟨0, 0, 0⟩, ⟨0, 0, 0⟩, id⟩, 30, none⟩] :
        List SpeedLimitSign).length ∧
    ((match_bboxes_with_speed_signs ⟨⟨0, 0, 0⟩, ⟨0, 0, 0⟩, id⟩ []
        [⟨⟨⟨0, 0, 0⟩, ⟨0, 0, 0⟩, id⟩, 30, none⟩]).1[0]?) =
      ([⟨⟨⟨0, 0, 0⟩, ⟨0, 0, 0⟩, id⟩, 30, none⟩] :
        List SpeedLimitSign)[0]? ∧
    ∃ det upd,
      get_detected_traffic_stops []
          (some ⟨⟨100, 100, ⟨⟨0, 0, 0⟩, ⟨0, 0, 0⟩, id⟩, fun _ => ⟨0, 0, 0⟩⟩,
            fun _ => [], fun _ _ _ _ => true⟩) = .ok (det, upd) ∧
      upd.length = ([] : List StopSign).length := by
  obtain ⟨hlen, _, _, hunch, ⟨det, upd, hok, hulen, _, _, _⟩⟩ :=
    claim_C9 ⟨⟨0, 0, 0⟩, ⟨0, 0, 0⟩, id⟩ []
      [⟨⟨⟨0, 0, 0⟩, ⟨0, 0, 0⟩, id⟩, 30, none⟩] []
      ⟨⟨100, 100, ⟨⟨0, 0, 0⟩, ⟨0, 0, 0⟩, id⟩, fun _ => ⟨0, 0, 0⟩⟩,
        fun _ => [], fun _ _ _ _ => true⟩
  exact ⟨hlen, hunch 0 (by simp [match_bboxes_with_speed_signs]),
    det, upd, hok, hulen⟩

/-- C3 counterexample: with the depth frame unavailable (None), both
detection-matching functions raise
`ValueError('depth_frame should be of type
perception.depth_frame.DepthFrame')` instead of skipping the occlusion
sub-check — the claim that they never raise is false at this input. -/
theorem claim_C3_counterexample :
    get_detected_speed_limits [] none ⟨fun _ _ => []⟩ =
      .error ("depth_frame should be of type perception.depth_frame.DepthFrame") ∧
    get_detected_traffic_stops [] none =
      .error ("depth_frame should be of type perception.depth_frame.DepthFrame") :=
  ⟨rfl, rfl⟩

/-- C3 (amended): when the reference depth buffer is unavailable, both
detection-matching functions raise a ValueError for that tick (no
graceful skip of the occlusion sub-check); whenever a depth frame is
present, neither function signals an error. -/
theorem claim_C3_amended (signs : List SpeedLimitSign)
    (seg : SegmentedFrame) (stops : List StopSign) :
    get_detected_speed_limits signs none seg =
      .error ("depth_frame should be of type perception.depth_frame.DepthFrame") ∧
    get_detected_traffic_stops stops none =
      .error ("depth_frame should be of type perception.depth_frame.DepthFrame") ∧
    (∀ df : DepthFrame, ∃ r,
      get_detected_speed_limits signs (some df) seg = .ok r) ∧
    (∀ df : DepthFrame, ∃ r,
      get_detected_traffic_stops stops (some df) = .ok r) :=
  ⟨rfl, rfl, fun _ => ⟨_, rfl⟩, fun _ => ⟨_, rfl⟩⟩

/-- C6: a 2D stop-sign detection is produced exactly when all four
projected corners of the ground-adjusted trigger-volume footprint are
valid (inside the image bounds with non-negative depth, the source's
`loc_view.z >= 0` check, matching the spec's treatment of negative depth
as invalid), the derived box height ymax − ymin exceeds 15, and the
depth-consistency probe at the first corner passes; in particular, with
only 3 of 4 corners valid, no detection is emitted. -/
theorem claim_C6 (bbox3d : BoundingBox3D) (df : DepthFrame) :
    ((get_stop_markings_bbox bbox3d df).isSome = true ↔
      stop_detected_spec bbox3d df) ∧
    ((corner_views bbox3d df).countP (valid_corner df.camera_setup) = 3 →
      get_stop_markings_bbox bbox3d df = none) := by
  have hlen : (corner_views bbox3d df).length = 4 := by
    simp [corner_views, footprint_corners]
  constructor
  · by_cases hall :
        (corner_views bbox3d df).all (valid_corner df.camera_setup) = true
    · have hfil : (corner_views bbox3d df).filter
          (valid_corner df.camera_setup) = corner_views bbox3d df :=
        List.filter_eq_self.mpr (List.all_eq_true.mp hall)
      simp only [get_stop_markings_bbox, stop_detected_spec, hfil, hlen,
        if_true, hall, true_and]
      by_cases hin :
          max (max ((corner_views bbox3d df).getD 0 default).y
            (((corner_views bbox3d df).getD 1 default).y))
            (max (((corner_views bbox3d df).getD 2 default).y)
              (((corner_views bbox3d df).getD 3 default).y)) -
          min (min (((corner_views bbox3d df).getD 0 default).y)
            (((corner_views bbox3d df).getD 1 default).y))
            (min (((corner_views bbox3d df).getD 2 default).y)
              (((corner_views bbox3d df).getD 3 default).y)) > 15 ∧
          df.pixel_has_same_depth
            (pyInt ((corner_views bbox3d df).getD 0 default).x)
            (pyInt ((corner_views bbox3d df).getD 0 default).y)
            ((corner_views bbox3d df).getD 0 default).z (2 / 5) = true
      · simp [hin]
      · simp [hin]
    · have hne : ((corner_views bbox3d df).filter
          (valid_corner df.camera_setup)).length ≠ 4 := by
        intro h4
        exact hall (List.all_eq_true.mpr (List.filter_eq_self.mp
          (List.Sublist.eq_of_length (List.filter_sublist _)
            (h4.trans hlen.symm))))
      simp only [get_stop_markings_bbox, stop_detected_spec]
      rw [if_neg hne]
      simp [hall]
  · intro h3
    have hne : ((corner_views bbox3d df).filter
        (valid_corner df.camera_setup)).length ≠ 4 := by
      rw [← List.countP_eq_length_filter]
      omega
    simp only [get_stop_markings_bbox]
    rw [if_neg hne]

/-- C6 witness: a concrete trigger volume whose transform sends the
first footprint corner out of the image (3 of 4 corners valid) yields no
detection. -/
theorem claim_C6_witness :
    (corner_views
        ⟨⟨⟨0, 0, 0⟩, ⟨0, 0, 0⟩,
          fun l => if l.x > 0 ∧ l.y > 0 then ⟨-5, 0, 0⟩ else ⟨1, 1, 1⟩⟩,
          ⟨1, 1, 17 / 20⟩⟩
        ⟨⟨100, 100, ⟨⟨0, 0, 0⟩, ⟨0, 0, 0⟩, id⟩, fun l => ⟨l.x, l.y, l.z⟩⟩,
          fun _ => [], fun _ _ _ _ => true⟩).countP
      (valid_corner
        (⟨⟨100, 100, ⟨⟨0, 0, 0⟩, ⟨0, 0, 0⟩, id⟩, fun l => ⟨l.x, l.y, l.z⟩⟩,
          fun _ => [], fun _ _ _ _ => true⟩ : DepthFrame).camera_setup) = 3 ∧
    get_stop_markings_bbox
        ⟨⟨⟨0, 0, 0⟩, ⟨0, 0, 0⟩,
          fun l => if l.x > 0 ∧ l.y > 0 then ⟨-5, 0, 0⟩ else ⟨1, 1, 1⟩⟩,
          ⟨1, 1, 17 / 20⟩⟩
        ⟨⟨100, 100, ⟨⟨0, 0, 0⟩, ⟨0, 0, 0⟩, id⟩, fun l => ⟨l.x, l.y, l.z⟩⟩,
          fun _ => [], fun _ _ _ _ => true⟩ = none := by
  have h3 : (corner_views
      ⟨⟨⟨0, 0, 0⟩, ⟨0, 0, 0⟩,
        fun l => if l.x > 0 ∧ l.y > 0 then ⟨-5, 0, 0⟩ else ⟨1, 1, 1⟩⟩,
        ⟨1, 1, 17 / 20⟩⟩
      ⟨⟨100, 100, ⟨⟨0, 0, 0⟩, ⟨0, 0, 0⟩, id⟩, fun l => ⟨l.x, l.y, l.z⟩⟩,
        fun _ => [], fun _ _ _ _ => true⟩).countP
      (valid_corner
        (⟨⟨100, 100, ⟨⟨0, 0, 0⟩, ⟨0, 0, 0⟩, id⟩, fun l => ⟨l.x, l.y, l.z⟩⟩,
          fun _ => [], fun _ _ _ _ => true⟩ : DepthFrame).camera_setup) = 3 := by
    norm_num [corner_views, footprint_corners, valid_corner,
      List.countP_cons, List.countP_nil]
  exact ⟨h3, (claim_C6 _ _).2 h3⟩

/-- Helper: folding on_can_bus_update from any state whose deque is
already full behaves as a sliding window over the concatenated history:
the deque is the last ten transforms and the previous-transform slot is
the element just before the window. -/
theorem chauffeur_run_full :
    ∀ (us : List Transform) (q0 : List Transform) (p c : Option Transform),
      q0.length = ChauffeurLoggerOperator.buffer_length →
      (us.foldl ChauffeurLoggerOperator.on_can_bus_update
          ⟨q0, p, c⟩).global_transforms = (q0 ++ us).drop us.length ∧
      (us = [] →
        (us.foldl ChauffeurLoggerOperator.on_can_bus_update
          ⟨q0, p, c⟩).previous_transform = p) ∧
      (us ≠ [] →
        (us.foldl ChauffeurLoggerOperator.on_can_bus_update
          ⟨q0, p, c⟩).previous_transform = (q0 ++ us)[us.length - 1]?)
  | [], q0, p, c => fun _ => by simp
  | u :: us', q0, p, c => fun h10 => by
    rcases q0 with _ | ⟨h, t⟩
    · simp [ChauffeurLoggerOperator.buffer_length] at h10
    have hstep : ChauffeurLoggerOperator.on_can_bus_update ⟨h :: t, p, c⟩ u =
        ⟨t ++ [u], some h, some u⟩ := by
      simp [ChauffeurLoggerOperator.on_can_bus_update, h10]
    have hlen' : (t ++ [u]).length = ChauffeurLoggerOperator.buffer_length := by
      simp at h10 ⊢
      omega
    obtain ⟨ih1, ih2, ih3⟩ := chauffeur_run_full us' (t ++ [u]) (some h) (some u) hlen'
    simp only [List.foldl_cons, hstep]
    refine ⟨?_, ?_, ?_⟩
    · rw [ih1]
      simp [List.append_assoc]
    · intro hcontra
      cases hcontra
    · intro _
      rcases us' with _ | ⟨v, vs⟩
      · simp
      · rw [ih3 (by simp)]
        have harr : (h :: t) ++ (u :: v :: vs) = h :: ((t ++ [u]) ++ (v :: vs)) := by
          simp
        rw [harr]
        have hidx : (u :: v :: vs).length - 1 = vs.length + 1 := by simp
        rw [hidx, List.getElem?_cons_succ]
        simp


/-- C10: running the ChauffeurLoggerOperator can-bus handler over any
non-empty sequence of received transforms, the transform deque always
holds exactly buffer_length (10) entries afterwards; previous_transform
equals the very first received transform for the first 11 updates, and
from the 11th update on it equals the transform received 10 updates
earlier. -/
theorem claim_C10 (ts : List Transform) (hne : ts ≠ []) :
    (ChauffeurLoggerOperator.runUpdates ts).global_transforms.length =
      ChauffeurLoggerOperator.buffer_length ∧
    (ts.length ≤ 11 →
      (ChauffeurLoggerOperator.runUpdates ts).previous_transform = ts[0]?) ∧
    (11 ≤ ts.length →
      (ChauffeurLoggerOperator.runUpdates ts).previous_transform =
        ts[ts.length - 11]?) := by
  rcases ts with _ | ⟨t1, rest⟩
  · exact absurd rfl hne
  have hstep1 : ChauffeurLoggerOperator.on_can_bus_update
      ChauffeurLoggerOperator.initState t1 =
      ⟨List.replicate 10 t1, some t1, some t1⟩ := by
    simp [ChauffeurLoggerOperator.on_can_bus_update,
      ChauffeurLoggerOperator.initState, ChauffeurLoggerOperator.buffer_length,
      List.replicate_succ']
  have hrun : ChauffeurLoggerOperator.runUpdates (t1 :: rest) =
      rest.foldl ChauffeurLoggerOperator.on_can_bus_update
        ⟨List.replicate 10 t1, some t1, some t1⟩ := by
    simp only [ChauffeurLoggerOperator.runUpdates, List.foldl_cons, hstep1]
  obtain ⟨ih1, ih2, ih3⟩ := chauffeur_run_full rest (List.replicate 10 t1)
    (some t1) (some t1) (by simp [ChauffeurLoggerOperator.buffer_length])
  rw [hrun]
  refine ⟨?_, ?_, ?_⟩
  · rw [ih1, List.length_drop, List.length_append, List.length_replicate]
    simp only [ChauffeurLoggerOperator.buffer_length]
    omega
  · intro hlen
    rcases rest with _ | ⟨v, vs⟩
    · exact ih2 rfl
    · rw [ih3 (by simp)]
      simp only [List.length_cons] at hlen ⊢
      rw [List.getElem?_append_left (by simp only [List.length_replicate]; omega)]
      rw [List.getElem?_replicate, if_pos (by omega)]
      rfl
  · intro hlen
    rcases rest with _ | ⟨v, vs⟩
    · simp at hlen
    · rw [ih3 (by simp)]
      simp only [List.length_cons] at hlen ⊢
      by_cases hk : vs.length + 1 - 1 < 10
      · -- exactly the 11th update: the window still starts at the seed
        rw [List.getElem?_append_left (by simp only [List.length_replicate]; omega)]
        rw [List.getElem?_replicate, if_pos hk]
        have h0 : vs.length + 1 + 1 - 11 = 0 := by omega
        rw [h0]
        rfl
      · rw [List.getElem?_append_right (by simp only [List.length_replicate]; omega)]
        simp only [List.length_replicate]
        have hj : vs.length + 1 + 1 - 11 = (vs.length + 1 - 1 - 10) + 1 := by omega
        rw [hj, List.getElem?_cons_succ]

/-- C10 witness: after two updates the deque holds 10 transforms and
previous_transform is the first update's transform. -/
theorem claim_C10_witness :
    (ChauffeurLoggerOperator.runUpdates
        [⟨⟨0, 0, 0⟩, ⟨0, 0, 0⟩, id⟩,
          ⟨⟨1, 0, 0⟩, ⟨0, 0, 0⟩, id⟩]).global_transforms.length =
      ChauffeurLoggerOperator.buffer_length ∧
    (ChauffeurLoggerOperator.runUpdates
        [⟨⟨0, 0, 0⟩, ⟨0, 0, 0⟩, id⟩,
          ⟨⟨1, 0, 0⟩, ⟨0, 0, 0⟩, id⟩]).previous_transform =
      [(⟨⟨0, 0, 0⟩, ⟨0, 0, 0⟩, id⟩ : Transform),
        ⟨⟨1, 0, 0⟩, ⟨0, 0, 0⟩, id⟩][0]? := by
  obtain ⟨h1, h2, _⟩ := claim_C10
    [⟨⟨0, 0, 0⟩, ⟨0, 0, 0⟩, id⟩, ⟨⟨1, 0, 0⟩, ⟨0, 0, 0⟩, id⟩] (by simp)
  exact ⟨h1, h2 (by norm_num)⟩

/-- C8: with heading-angle error 0.2 rad, angular-rate magnitude below
the cornering threshold and speed_factor 1, the control message carries
steer = steering gain × 0.2 clamped to [−1, 1], and the adjusted target
speed is the configured nominal speed divided by 2. -/
theorem claim_C8 (flags : Flags) (ctb : ℚ → ℚ → ℚ × ℚ)
    (wp_angle_speed current_speed : ℚ) (t : ℕ)
    (hs : current_speed ≥ 0) (hrate : |wp_angle_speed| < 1 / 10) :
    target_speed_adjusted flags wp_angle_speed 1 = flags.target_speed / 2 ∧
    ∃ throttle brake,
      get_control_message flags ctb (1 / 5) wp_angle_speed 1 current_speed t =
        .ok ⟨min 1 (max (-1) (flags.steer_gain * (1 / 5))), throttle, brake,
          false, false, t⟩ := by
  have htsa : target_speed_adjusted flags wp_angle_speed 1 =
      flags.target_speed / 2 := by
    rw [target_speed_adjusted, if_pos hrate, mul_one]
  refine ⟨htsa,
    (ctb current_speed (target_speed_adjusted flags wp_angle_speed 1)).1,
    (ctb current_speed (target_speed_adjusted flags wp_angle_speed 1)).2, ?_⟩
  simp only [get_control_message, radians_to_steer, if_pos hs]

/-- C8 witness: concrete run with gain 3, nominal speed 20, angular rate
0.05: steer is clamped to 1 (3 × 0.2 = 0.6 → within bounds it is 0.6)
and the target speed is 10. -/
theorem claim_C8_witness :
    target_speed_adjusted ⟨20, 3⟩ (1 / 20) 1 = 20 / 2 ∧
    ∃ throttle brake,
      get_control_message ⟨20, 3⟩ (fun _ _ => (1, 0)) (1 / 5) (1 / 20) 1 4 9 =
        .ok ⟨min 1 (max (-1) (3 * (1 / 5))), throttle, brake,
          false, false, 9⟩ :=
  claim_C8 ⟨20, 3⟩ (fun _ _ => (1, 0)) (1 / 20) 4 9 (by norm_num)
    (by rw [show |(1 / 20 : ℚ)| = 1 / 20 from abs_of_pos (by norm_num)]
        norm_num)

end Pylot
